import Mathlib

/-
Verification of the Cosmos DB retry policy for the gocql driver
(retry/cosmos_retry_policy.go).

Strings are modelled as List Char.  Go's strings.Split, strings.Contains,
strings.TrimSpace and strconv.Atoi are embedded as executable functions.
Go's time.Duration is an integer count of nanoseconds, modelled as Int
(arithmetic is taken exact; no claim here exercises 64-bit wrap-around).
The pseudo-random value rand.Intn(growingBackOffSaltMillis) is modelled by
an explicit oracle argument named jitter, constrained to lie in the interval
from 0 inclusive to 2000 exclusive wherever the contract of rand.Intn
matters.  A Go run-time panic (index out of range on a slice) is modelled by
the error branch of Except.
-/

namespace CosmosRetry

/-- Whitespace test of Go's `unicode.IsSpace`, restricted to the code points
it recognises (Latin-1 plus the Unicode space characters). -/
def goIsSpace (c : Char) : Bool :=
  c == ' ' || c == '\t' || c == '\n' || c == '\x0b' || c == '\x0c' || c == '\r' ||
  c == '\u0085' || c == ' ' || c == ' ' ||
  c == ' ' || c == ' ' || c == ' ' || c == ' ' ||
  c == ' ' || c == ' ' || c == ' ' || c == ' ' ||
  c == ' ' || c == ' ' || c == ' ' ||
  c == ' ' || c == ' ' || c == ' ' || c == ' ' || c == '　'

/-- Go `strings.TrimSpace`: drop whitespace from both ends. -/
def goTrimSpace (s : List Char) : List Char :=
  ((s.dropWhile goIsSpace).reverse.dropWhile goIsSpace).reverse

/-- Whether `s` starts with `pat` (helper for `goContains`). -/
def goStartsWith : List Char → List Char → Bool
  | _, [] => true
  | [], _ :: _ => false
  | a :: s, b :: pat => a == b && goStartsWith s pat

/-- Go `strings.Contains s pat`: `pat` occurs as a contiguous substring of `s`. -/
def goContains (s pat : List Char) : Bool :=
  goStartsWith s pat ||
    match s with
    | [] => false
    | _ :: rest => goContains rest pat

/-- Go `strings.Split s sep` for a one-character separator: the list of
(possibly empty) fragments of `s` between occurrences of `sep`.  It is never
empty. -/
def goSplit (s : List Char) (sep : Char) : List (List Char) :=
  match s with
  | [] => [[]]
  | c :: rest =>
    if c == sep then [] :: goSplit rest sep
    else
      match goSplit rest sep with
      | [] => [[c]]
      | p :: ps => (c :: p) :: ps

/-- Value of a decimal digit character, `none` on a non-digit. -/
def digitVal (c : Char) : Option Nat :=
  if c.isDigit then some (c.toNat - '0'.toNat) else none

/-- Accumulating decimal parser: succeeds iff every character is a digit. -/
def parseDigitsAux : Nat → List Char → Option Nat
  | acc, [] => some acc
  | acc, c :: rest =>
    match digitVal c with
    | some d => parseDigitsAux (acc * 10 + d) rest
    | none => none

/-- Go `strconv.Atoi`: an optional sign followed by at least one digit, all
characters digits; anything else is a parse error (`none`).  The 64-bit
range check is not modelled (integers are exact here). -/
def goAtoi (s : List Char) : Option Int :=
  match s with
  | [] => none
  | c :: rest =>
    if c == '+' then
      match rest with
      | [] => none
      | _ :: _ => (parseDigitsAux 0 rest).map Int.ofNat
    else if c == '-' then
      match rest with
      | [] => none
      | _ :: _ => (parseDigitsAux 0 rest).map (fun n => -Int.ofNat n)
    else
      (parseDigitsAux 0 (c :: rest)).map Int.ofNat

/-- Go `time.Millisecond` in nanoseconds (`time.Duration` is a nanosecond
count). -/
def millisecond : Int := 1000000

/-- The struct `CosmosRetryPolicy`: three exported configuration fields and
the private attempt counter. -/
structure CosmosRetryPolicy where
  MaxRetryCount : Int
  FixedBackOffTimeMs : Int
  GrowingBackOffTimeMs : Int
  numAttempts : Int
  deriving DecidableEq

def defaultGrowingBackOffTimeMs : Int := 1000

def defaultFixedBackOffTimeMs : Int := 5000

/-- `NewCosmosRetryPolicy`: defaults for the two back-off fields; the
unexported `numAttempts` gets Go's zero value. -/
def NewCosmosRetryPolicy (maxRetryCount : Int) : CosmosRetryPolicy :=
  { MaxRetryCount := maxRetryCount
    FixedBackOffTimeMs := defaultFixedBackOffTimeMs
    GrowingBackOffTimeMs := defaultGrowingBackOffTimeMs
    numAttempts := 0 }

/-- `Attempt` writes `rq.Attempts()` into `numAttempts` and returns whether
another try is admitted.  The query is represented by its `Attempts()`
value. -/
def Attempt (crp : CosmosRetryPolicy) (rqAttempts : Int) : CosmosRetryPolicy × Bool :=
  let crp' := { crp with numAttempts := rqAttempts }
  (crp', decide (rqAttempts ≤ crp.MaxRetryCount) || (crp.MaxRetryCount == -1))

def rateLimitingErrPart : List Char := "TooManyRequests (429)".toList

def retryAfterKey : List Char := "RetryAfterMs".toList

def growingBackOffSaltMillis : Int := 2000

/-- A Go run-time panic reachable in this code: indexing a slice out of
range. -/
inductive GoPanic where
  | indexOutOfRange
  deriving DecidableEq

/-- `getRetryAfterMs`, returning the `time.Duration` in nanoseconds, or the
panic raised by an out-of-range slice index.  `jitter` is the oracle for
`rand.Intn growingBackOffSaltMillis`. -/
def getRetryAfterMs (crp : CosmosRetryPolicy) (jitter : Int) (errMsg : List Char) :
    Except GoPanic Int :=
  if goContains errMsg rateLimitingErrPart then
    let parts := goSplit errMsg ','
    match parts[1]? with
    | none => .error .indexOutOfRange
    | some retryPart =>
      let kv := goSplit retryPart '='
      match kv[0]? with
      | none => .error .indexOutOfRange
      | some k =>
        if goTrimSpace k = retryAfterKey then
          match kv[1]? with
          | none => .error .indexOutOfRange
          | some vstr => .ok (((goAtoi vstr).getD 0) * millisecond)
        else if crp.MaxRetryCount > -1 then
          .ok (crp.FixedBackOffTimeMs * millisecond)
        else
          .ok ((crp.GrowingBackOffTimeMs * crp.numAttempts + jitter) * millisecond)
  else
    .ok (-1)

/-- The `gocql.RetryType` values. -/
inductive RetryType where
  | Retry
  | RetryNextHost
  | Ignore
  | Rethrow
  deriving DecidableEq

/-- The error argument of `GetRetryType`: one of the three typed gocql
request errors, or a generic error carrying its message. -/
inductive GoError where
  | readTimeout
  | unavailable
  | writeTimeout
  | generic (msg : List Char)
  deriving DecidableEq

/-- `GetRetryType`: the verdict together with the duration slept inside the
call (`time.Sleep retryAfterMs` on the generic retry path, zero elsewhere). -/
def GetRetryType (crp : CosmosRetryPolicy) (jitter : Int) (err : GoError) :
    Except GoPanic (RetryType × Int) :=
  match err with
  | .readTimeout => .ok (.Retry, 0)
  | .unavailable => .ok (.Retry, 0)
  | .writeTimeout => .ok (.Retry, 0)
  | .generic msg =>
    match getRetryAfterMs crp jitter msg with
    | .error p => .error p
    | .ok retryAfterMs =>
      if retryAfterMs = -1 then .ok (.Rethrow, 0)
      else .ok (.Retry, retryAfterMs)

theorem goSplit_append_sep (sep : Char) (p s : List Char)
    (hp : p.all (fun c => !(c == sep)) = true) :
    goSplit (p ++ sep :: s) sep = p :: goSplit s sep := by
  induction p with
  | nil => simp [goSplit]
  | cons a p ih =>
    simp only [List.all_cons, Bool.and_eq_true, Bool.not_eq_true'] at hp
    obtain ⟨ha, hp⟩ := hp
    simp [goSplit, ha, ih hp]

theorem goSplit_no_sep (sep : Char) (s : List Char)
    (hs : s.all (fun c => !(c == sep)) = true) :
    goSplit s sep = [s] := by
  induction s with
  | nil => rfl
  | cons a s ih =>
    simp only [List.all_cons, Bool.and_eq_true, Bool.not_eq_true'] at hs
    obtain ⟨ha, hs⟩ := hs
    simp [goSplit, ha, ih hs]

theorem goSplit_get1 (p frag rest : List Char)
    (hp : p.all (fun c => !(c == ',')) = true)
    (hfrag : frag.all (fun c => !(c == ',')) = true)
    (hrest : rest = [] ∨ rest.head? = some ',') :
    (goSplit (p ++ ',' :: (frag ++ rest)) ',')[1]? = some frag := by
  rw [goSplit_append_sep ',' p _ hp]
  rcases hrest with h | h
  · subst h
    rw [show frag ++ ([] : List Char) = frag from List.append_nil frag,
      goSplit_no_sep ',' frag hfrag]
    rfl
  · cases rest with
    | nil => simp at h
    | cons a t =>
      have ha : a = ',' := by simpa using h
      subst ha
      rw [goSplit_append_sep ',' frag t hfrag]
      simp

theorem dropWhile_append_all {p : Char → Bool} (w t : List Char)
    (hw : w.all p = true) : (w ++ t).dropWhile p = t.dropWhile p := by
  induction w with
  | nil => rfl
  | cons a w ih =>
    simp only [List.all_cons, Bool.and_eq_true] at hw
    simp [List.dropWhile, hw.1, ih hw.2]

theorem dropWhile_cons_false {p : Char → Bool} (a : Char) (l : List Char)
    (ha : p a = false) : (a :: l).dropWhile p = a :: l := by
  simp [List.dropWhile, ha]

theorem goTrimSpace_of_key (w₁ w₂ : List Char)
    (h1 : w₁.all goIsSpace = true) (h2 : w₂.all goIsSpace = true) :
    goTrimSpace (w₁ ++ (retryAfterKey ++ w₂)) = retryAfterKey := by
  have h2' : w₂.reverse.all goIsSpace = true := by
    rw [List.all_reverse]; exact h2
  unfold goTrimSpace
  rw [dropWhile_append_all _ _ h1,
    show retryAfterKey ++ w₂ = 'R' :: ("etryAfterMs".toList ++ w₂) from rfl,
    dropWhile_cons_false _ _ (by decide),
    show 'R' :: ("etryAfterMs".toList ++ w₂) = retryAfterKey ++ w₂ from rfl,
    List.reverse_append,
    dropWhile_append_all _ _ h2',
    show (retryAfterKey.reverse.dropWhile goIsSpace).reverse = retryAfterKey by decide]

theorem getRetryAfterMs_server_path (crp : CosmosRetryPolicy) (jitter : Int)
    (msg frag k vstr : List Char)
    (hm : goContains msg rateLimitingErrPart = true)
    (hfrag : (goSplit msg ',')[1]? = some frag)
    (hk : (goSplit frag '=')[0]? = some k)
    (htrim : goTrimSpace k = retryAfterKey)
    (hv : (goSplit frag '=')[1]? = some vstr) :
    getRetryAfterMs crp jitter msg = .ok (((goAtoi vstr).getD 0) * millisecond) := by
  simp [getRetryAfterMs, hm, hfrag, hk, htrim, hv]

theorem getRetryAfterMs_fixed_path (crp : CosmosRetryPolicy) (jitter : Int)
    (msg frag k : List Char)
    (hm : goContains msg rateLimitingErrPart = true)
    (hfrag : (goSplit msg ',')[1]? = some frag)
    (hk : (goSplit frag '=')[0]? = some k)
    (hne : goTrimSpace k ≠ retryAfterKey)
    (hfin : crp.MaxRetryCount > -1) :
    getRetryAfterMs crp jitter msg = .ok (crp.FixedBackOffTimeMs * millisecond) := by
  simp [getRetryAfterMs, hm, hfrag, hk, hne, hfin]

theorem getRetryAfterMs_growing_path (crp : CosmosRetryPolicy) (jitter : Int)
    (msg frag k : List Char)
    (hm : goContains msg rateLimitingErrPart = true)
    (hfrag : (goSplit msg ',')[1]? = some frag)
    (hk : (goSplit frag '=')[0]? = some k)
    (hne : goTrimSpace k ≠ retryAfterKey)
    (hinf : ¬ crp.MaxRetryCount > -1) :
    getRetryAfterMs crp jitter msg =
      .ok ((crp.GrowingBackOffTimeMs * crp.numAttempts + jitter) * millisecond) := by
  simp [getRetryAfterMs, hm, hfrag, hk, hne, hinf]

theorem getRetryAfterMs_outcomes (crp : CosmosRetryPolicy) (jitter : Int)
    (msg : List Char) (hm : goContains msg rateLimitingErrPart = true) :
    getRetryAfterMs crp jitter msg = .error .indexOutOfRange ∨
    (∃ frag vstr, (goSplit msg ',')[1]? = some frag ∧
      (goSplit frag '=')[1]? = some vstr ∧
      getRetryAfterMs crp jitter msg = .ok (((goAtoi vstr).getD 0) * millisecond)) ∨
    getRetryAfterMs crp jitter msg = .ok (crp.FixedBackOffTimeMs * millisecond) ∨
    getRetryAfterMs crp jitter msg =
      .ok ((crp.GrowingBackOffTimeMs * crp.numAttempts + jitter) * millisecond) := by
  cases h1 : (goSplit msg ',')[1]? with
  | none => exact Or.inl (by simp [getRetryAfterMs, hm, h1])
  | some frag =>
    cases h2 : (goSplit frag '=')[0]? with
    | none => exact Or.inl (by simp [getRetryAfterMs, hm, h1, h2])
    | some k =>
      by_cases h3 : goTrimSpace k = retryAfterKey
      · cases h4 : (goSplit frag '=')[1]? with
        | none => exact Or.inl (by simp [getRetryAfterMs, hm, h1, h2, h3, h4])
        | some vstr =>
          exact Or.inr (Or.inl ⟨frag, vstr, rfl, h4,
            by simp [getRetryAfterMs, hm, h1, h2, h3, h4]⟩)
      · by_cases h5 : crp.MaxRetryCount > -1
        · exact Or.inr (Or.inr (Or.inl (by simp [getRetryAfterMs, hm, h1, h2, h3, h5])))
        · exact Or.inr (Or.inr (Or.inr (by simp [getRetryAfterMs, hm, h1, h2, h3, h5])))

/-- C1: `Attempt` returns true iff the attempt count is within
`MaxRetryCount` or the policy is unbounded, records the attempt count into
`numAttempts`, and leaves the three configuration fields unchanged. -/
theorem Attempt_spec (crp : CosmosRetryPolicy) (rqAttempts : Int) :
    ((Attempt crp rqAttempts).2 = true ↔
      (rqAttempts ≤ crp.MaxRetryCount ∨ crp.MaxRetryCount = -1)) ∧
    (Attempt crp rqAttempts).1.numAttempts = rqAttempts ∧
    (Attempt crp rqAttempts).1.MaxRetryCount = crp.MaxRetryCount ∧
    (Attempt crp rqAttempts).1.FixedBackOffTimeMs = crp.FixedBackOffTimeMs ∧
    (Attempt crp rqAttempts).1.GrowingBackOffTimeMs = crp.GrowingBackOffTimeMs := by
  refine ⟨?_, rfl, rfl, rfl, rfl⟩
  simp [Attempt]

/-- C2: the code can in fact panic: on a message that contains the
rate-limit marker but no comma, `strings.Split` yields a single fragment and
the unconditional `parts[1]` read is out of range. -/
theorem getRetryAfterMs_panics_on_comma_free_marker :
    getRetryAfterMs (NewCosmosRetryPolicy 5) 0 "TooManyRequests (429)".toList =
      .error .indexOutOfRange := rfl

/-- C9: for every policy state and jitter, the three typed gocql errors are
answered with an immediate `Retry` and zero sleep. -/
theorem GetRetryType_typed_errors (crp : CosmosRetryPolicy) (jitter : Int) :
    GetRetryType crp jitter .readTimeout = .ok (.Retry, 0) ∧
    GetRetryType crp jitter .unavailable = .ok (.Retry, 0) ∧
    GetRetryType crp jitter .writeTimeout = .ok (.Retry, 0) :=
  ⟨rfl, rfl, rfl⟩

/-- C8: a rate-limit message whose second comma fragment has key exactly
`RetryAfterMs` after trimming, but a value that does not parse as an
integer, yields exactly 0 milliseconds and no error. -/
theorem getRetryAfterMs_bad_value_zero (crp : CosmosRetryPolicy) (jitter : Int)
    (msg frag k vstr : List Char)
    (hm : goContains msg rateLimitingErrPart = true)
    (hfrag : (goSplit msg ',')[1]? = some frag)
    (hk : (goSplit frag '=')[0]? = some k)
    (htrim : goTrimSpace k = retryAfterKey)
    (hv : (goSplit frag '=')[1]? = some vstr)
    (hbad : goAtoi vstr = none) :
    getRetryAfterMs crp jitter msg = .ok 0 := by
  rw [getRetryAfterMs_server_path crp jitter msg frag k vstr hm hfrag hk htrim hv, hbad]
  simp

theorem getRetryAfterMs_bad_value_zero_witness :
    getRetryAfterMs (NewCosmosRetryPolicy 5) 0
      "x, RetryAfterMs=abc, TooManyRequests (429)".toList = .ok 0 :=
  getRetryAfterMs_bad_value_zero (NewCosmosRetryPolicy 5) 0 _
    (" RetryAfterMs=abc".toList) (" RetryAfterMs".toList) ("abc".toList)
    (by decide) (by decide) (by decide) (by decide) (by decide) (by decide)

/-- C4: with an unbounded policy (`MaxRetryCount = -1`) and a rate-limit
message whose second comma fragment does not carry the `RetryAfterMs` key,
the delay is `GrowingBackOffTimeMs * numAttempts + jitter` milliseconds with
the jitter drawn from `[0, 2000)`; with `GrowingBackOffTimeMs = 1000` and
`numAttempts = 2` the delay lies in `[2000 ms, 4000 ms)`. -/
theorem getRetryAfterMs_growing_backoff (crp : CosmosRetryPolicy) (jitter : Int)
    (msg frag k : List Char)
    (hm : goContains msg rateLimitingErrPart = true)
    (hfrag : (goSplit msg ',')[1]? = some frag)
    (hk : (goSplit frag '=')[0]? = some k)
    (hne : goTrimSpace k ≠ retryAfterKey)
    (hinf : crp.MaxRetryCount = -1)
    (hj0 : 0 ≤ jitter) (hj : jitter < growingBackOffSaltMillis) :
    getRetryAfterMs crp jitter msg =
      .ok ((crp.GrowingBackOffTimeMs * crp.numAttempts + jitter) * millisecond) ∧
    (crp.GrowingBackOffTimeMs = 1000 → crp.numAttempts = 2 →
      2000 * millisecond ≤ (crp.GrowingBackOffTimeMs * crp.numAttempts + jitter) * millisecond ∧
      (crp.GrowingBackOffTimeMs * crp.numAttempts + jitter) * millisecond <
        4000 * millisecond) := by
  refine ⟨getRetryAfterMs_growing_path crp jitter msg frag k hm hfrag hk hne (by omega), ?_⟩
  intro hG hn
  rw [hG, hn]
  simp only [millisecond, growingBackOffSaltMillis] at *
  constructor <;> nlinarith

theorem getRetryAfterMs_growing_backoff_witness :
    getRetryAfterMs ⟨-1, 5000, 1000, 2⟩ 7 "a, b, TooManyRequests (429)".toList =
      .ok ((1000 * 2 + 7) * millisecond) ∧
    (2000 * millisecond ≤ ((1000 : Int) * 2 + 7) * millisecond ∧
      ((1000 : Int) * 2 + 7) * millisecond < 4000 * millisecond) := by
  have h := getRetryAfterMs_growing_backoff ⟨-1, 5000, 1000, 2⟩ 7
    ("a, b, TooManyRequests (429)".toList) (" b".toList) (" b".toList)
    (by decide) (by decide) (by decide) (by decide) rfl (by decide) (by decide)
  exact ⟨h.1, h.2 rfl rfl⟩

/-- C5 counterexample: with `MaxRetryCount = -2` (below `-1`) a key-less
rate-limit message takes the growing back-off path, not the fixed one: the
result is 0, not `FixedBackOffTimeMs` milliseconds. -/
theorem c5_counterexample :
    getRetryAfterMs ⟨-2, 5000, 1000, 0⟩ 0 "a, b, TooManyRequests (429)".toList =
      .ok 0 ∧ (0 : Int) ≠ 5000 * millisecond := by
  constructor
  · rfl
  · decide

/-- C5 amended: a policy whose `MaxRetryCount` is greater than `-1` gets the
fixed back-off on a rate-limit message without the `RetryAfterMs` key
(values below `-1` instead take the growing back-off path). -/
theorem getRetryAfterMs_fixed_backoff (crp : CosmosRetryPolicy) (jitter : Int)
    (msg frag k : List Char)
    (hm : goContains msg rateLimitingErrPart = true)
    (hfrag : (goSplit msg ',')[1]? = some frag)
    (hk : (goSplit frag '=')[0]? = some k)
    (hne : goTrimSpace k ≠ retryAfterKey)
    (hfin : crp.MaxRetryCount > -1) :
    getRetryAfterMs crp jitter msg = .ok (crp.FixedBackOffTimeMs * millisecond) :=
  getRetryAfterMs_fixed_path crp jitter msg frag k hm hfrag hk hne hfin

theorem getRetryAfterMs_fixed_backoff_witness :
    getRetryAfterMs (NewCosmosRetryPolicy 5) 0 "a, b, TooManyRequests (429)".toList =
      .ok ((NewCosmosRetryPolicy 5).FixedBackOffTimeMs * millisecond) :=
  getRetryAfterMs_fixed_backoff (NewCosmosRetryPolicy 5) 0
    ("a, b, TooManyRequests (429)".toList) (" b".toList) (" b".toList)
    (by decide) (by decide) (by decide) (by decide) (by decide)

/-- C6: without the rate-limit marker the sentinel `-1` (a negative
duration) is returned and the verdict is `Rethrow`; and no marker-containing
message can ever produce `-1`, since every delay it produces is a whole
number of milliseconds. -/
theorem getRetryAfterMs_sentinel_and_rethrow (crp : CosmosRetryPolicy)
    (jitter : Int) (msg : List Char) (crp₂ : CosmosRetryPolicy) (jitter₂ : Int)
    (msg₂ : List Char) (d₂ : Int)
    (h : goContains msg rateLimitingErrPart = false)
    (h₂ : goContains msg₂ rateLimitingErrPart = true)
    (hok₂ : getRetryAfterMs crp₂ jitter₂ msg₂ = .ok d₂) :
    getRetryAfterMs crp jitter msg = .ok (-1) ∧
    GetRetryType crp jitter (.generic msg) = .ok (.Rethrow, 0) ∧
    d₂ ≠ -1 := by
  have h1 : getRetryAfterMs crp jitter msg = .ok (-1) := by
    simp [getRetryAfterMs, h]
  refine ⟨h1, by simp [GetRetryType, h1], ?_⟩
  rcases getRetryAfterMs_outcomes crp₂ jitter₂ msg₂ h₂ with
    herr | ⟨frag, vstr, _, _, hk⟩ | hk | hk <;>
    [skip; skip; skip; skip] <;>
    first
    | (rw [herr] at hok₂; cases hok₂)
    | (rw [hk] at hok₂
       injection hok₂ with h'
       intro heq
       rw [heq] at h'
       simp only [millisecond] at h'
       omega)

theorem getRetryAfterMs_sentinel_and_rethrow_witness :
    getRetryAfterMs (NewCosmosRetryPolicy 2) 0 "error: today is not your day".toList =
      .ok (-1) ∧
    GetRetryType (NewCosmosRetryPolicy 2) 0
      (.generic "error: today is not your day".toList) = .ok (.Rethrow, 0) ∧
    (5000 * millisecond : Int) ≠ -1 :=
  getRetryAfterMs_sentinel_and_rethrow (NewCosmosRetryPolicy 2) 0 _
    (NewCosmosRetryPolicy 5) 0 "a, b, TooManyRequests (429)".toList
    (5000 * millisecond) (by decide) (by decide) rfl

/-- C7 counterexample: a server-supplied `RetryAfterMs=-5` is passed through
as a negative delay of -5 ms, which is neither non-negative nor the sentinel
`-1` nanoseconds. -/
theorem c7_counterexample :
    getRetryAfterMs (NewCosmosRetryPolicy 5) 0
      "x, RetryAfterMs=-5, TooManyRequests (429)".toList = .ok (-5 * millisecond) ∧
    (-5 * millisecond : Int) < 0 ∧ (-5 * millisecond : Int) ≠ -1 :=
  ⟨rfl, by decide, by decide⟩

/-- C7 amended: with non-negative back-off configuration, attempt counter and
jitter, and provided any parsed `RetryAfterMs` value is non-negative, every
returned duration is either the sentinel `-1` or non-negative; a negative
server-supplied value, however, is passed through as a negative delay. -/
theorem getRetryAfterMs_nonneg_unless_sentinel (crp : CosmosRetryPolicy)
    (jitter : Int) (msg : List Char) (d : Int)
    (hfix : 0 ≤ crp.FixedBackOffTimeMs) (hgrow : 0 ≤ crp.GrowingBackOffTimeMs)
    (hatt : 0 ≤ crp.numAttempts) (hj0 : 0 ≤ jitter)
    (hsv : ∀ frag vstr v, (goSplit msg ',')[1]? = some frag →
      (goSplit frag '=')[1]? = some vstr → goAtoi vstr = some v → 0 ≤ v)
    (hok : getRetryAfterMs crp jitter msg = .ok d) :
    d = -1 ∨ 0 ≤ d := by
  by_cases hm : goContains msg rateLimitingErrPart = true
  · right
    rcases getRetryAfterMs_outcomes crp jitter msg hm with
      herr | ⟨frag, vstr, hfrag, hvstr, hk⟩ | hk | hk
    · rw [herr] at hok; cases hok
    · rw [hk] at hok
      injection hok with h'
      rw [← h']
      cases hv : goAtoi vstr with
      | none => simp [hv]
      | some v =>
        have hv0 := hsv frag vstr v hfrag hvstr hv
        simpa using mul_nonneg hv0 (by norm_num [millisecond] : (0:Int) ≤ millisecond)
    · rw [hk] at hok
      injection hok with h'
      rw [← h']
      exact mul_nonneg hfix (by norm_num [millisecond])
    · rw [hk] at hok
      injection hok with h'
      rw [← h']
      exact mul_nonneg (add_nonneg (mul_nonneg hgrow hatt) hj0)
        (by norm_num [millisecond])
  · left
    rw [Bool.not_eq_true] at hm
    have hres : getRetryAfterMs crp jitter msg = .ok (-1) := by
      simp [getRetryAfterMs, hm]
    rw [hres] at hok
    injection hok with h'
    exact h'.symm

theorem getRetryAfterMs_nonneg_unless_sentinel_witness :
    (-1 : Int) = -1 ∨ (0 : Int) ≤ -1 :=
  getRetryAfterMs_nonneg_unless_sentinel (NewCosmosRetryPolicy 5) 0
    "hello".toList (-1) (by decide) (by decide) (by decide) (by decide)
    (fun _ _ _ h1 _ _ => nomatch h1) rfl

/-- C10: a freshly constructed policy has attempt counter 0, so an unbounded
policy with counter 0 answers a key-less rate-limit message with the jitter
alone, in `[0 ms, 2000 ms)`, whatever `GrowingBackOffTimeMs` is. -/
theorem fresh_policy_jitter_only (m : Int) (crp : CosmosRetryPolicy)
    (jitter : Int) (msg frag k : List Char)
    (hm : goContains msg rateLimitingErrPart = true)
    (hfrag : (goSplit msg ',')[1]? = some frag)
    (hk : (goSplit frag '=')[0]? = some k)
    (hne : goTrimSpace k ≠ retryAfterKey)
    (hj0 : 0 ≤ jitter) (hj : jitter < growingBackOffSaltMillis)
    (hatt : crp.numAttempts = 0) (hinf : crp.MaxRetryCount = -1) :
    (NewCosmosRetryPolicy m).numAttempts = 0 ∧
    getRetryAfterMs crp jitter msg = .ok (jitter * millisecond) ∧
    getRetryAfterMs (NewCosmosRetryPolicy (-1)) jitter msg =
      .ok (jitter * millisecond) ∧
    0 ≤ jitter * millisecond ∧ jitter * millisecond < 2000 * millisecond := by
  have gen : ∀ c : CosmosRetryPolicy, c.numAttempts = 0 → c.MaxRetryCount = -1 →
      getRetryAfterMs c jitter msg = .ok (jitter * millisecond) := by
    intro c h0 hI
    have hrun := getRetryAfterMs_growing_path c jitter msg frag k hm hfrag hk hne
      (by omega)
    rw [hrun, h0]
    simp
  refine ⟨rfl, gen crp hatt hinf, gen (NewCosmosRetryPolicy (-1)) rfl rfl, ?_, ?_⟩
  · exact mul_nonneg hj0 (by norm_num [millisecond])
  · have hms : (0 : Int) < millisecond := by norm_num [millisecond]
    exact mul_lt_mul_of_pos_right
      (by simpa [growingBackOffSaltMillis] using hj) hms

theorem fresh_policy_jitter_only_witness :
    (NewCosmosRetryPolicy 3).numAttempts = 0 ∧
    getRetryAfterMs (NewCosmosRetryPolicy (-1)) 7
      "a, b, TooManyRequests (429)".toList = .ok (7 * millisecond) ∧
    getRetryAfterMs (NewCosmosRetryPolicy (-1)) 7
      "a, b, TooManyRequests (429)".toList = .ok (7 * millisecond) ∧
    (0 : Int) ≤ 7 * millisecond ∧ (7 : Int) * millisecond < 2000 * millisecond :=
  fresh_policy_jitter_only 3 (NewCosmosRetryPolicy (-1)) 7
    ("a, b, TooManyRequests (429)".toList) (" b".toList) (" b".toList)
    (by decide) (by decide) (by decide) (by decide) (by decide) (by decide)
    rfl rfl

theorem parseDigitsAux_digits : ∀ (s : List Char) (acc n : Nat),
    parseDigitsAux acc s = some n → s.all Char.isDigit = true
  | [], _, _, _ => rfl
  | c :: rest, acc, n, h => by
    unfold parseDigitsAux digitVal at h
    by_cases hc : c.isDigit
    · rw [if_pos hc] at h
      simp only [List.all_cons, hc, Bool.true_and]
      exact parseDigitsAux_digits rest _ _ h
    · rw [if_neg hc] at h
      exact Option.noConfusion h

theorem all_mono {p q : Char → Bool} (l : List Char)
    (himp : ∀ c, p c = true → q c = true) (h : l.all p = true) :
    l.all q = true := by
  simp only [List.all_eq_true] at h ⊢
  exact fun c hc => himp c (h c hc)

theorem all_and_left {p q : Char → Bool} (l : List Char)
    (h : l.all (fun c => p c && q c) = true) : l.all p = true :=
  all_mono l (fun c hc => by
    simp only [Bool.and_eq_true] at hc
    exact hc.1) h

theorem all_and_right {p q : Char → Bool} (l : List Char)
    (h : l.all (fun c => p c && q c) = true) : l.all q = true :=
  all_mono l (fun c hc => by
    simp only [Bool.and_eq_true] at hc
    exact hc.2) h

theorem map_eq_some_digits {f : Nat → Int} (t : List Char) (v : Int)
    (h : (parseDigitsAux 0 t).map f = some v) : t.all Char.isDigit = true := by
  cases hn : parseDigitsAux 0 t with
  | none => rw [hn] at h; exact Option.noConfusion h
  | some n => exact parseDigitsAux_digits _ _ _ hn

theorem goAtoi_cons (c : Char) (rest : List Char) :
    goAtoi (c :: rest) =
      if c == '+' then
        (match rest with
          | [] => none
          | _ :: _ => (parseDigitsAux 0 rest).map Int.ofNat)
      else if c == '-' then
        (match rest with
          | [] => none
          | _ :: _ => (parseDigitsAux 0 rest).map (fun n => -Int.ofNat n))
      else (parseDigitsAux 0 (c :: rest)).map Int.ofNat := rfl

theorem goAtoi_shape (s : List Char) (v : Int) (h : goAtoi s = some v) :
    s.all (fun c => c == '+' || c == '-' || c.isDigit) = true := by
  have hdig : ∀ t : List Char, t.all Char.isDigit = true →
      t.all (fun c => c == '+' || c == '-' || c.isDigit) = true :=
    fun t => all_mono t (fun c hc => by simp [hc])
  cases s with
  | nil => exact Option.noConfusion h
  | cons c rest =>
    rw [goAtoi_cons] at h
    by_cases hplus : (c == '+') = true
    · rw [if_pos hplus] at h
      cases rest with
      | nil => exact Option.noConfusion h
      | cons b t =>
        have hd : (b :: t).all Char.isDigit = true := map_eq_some_digits (b :: t) v h
        have hc : c = '+' := by simpa using hplus
        subst hc
        simp only [List.all_cons, Bool.or_eq_true, Bool.and_eq_true]
        refine ⟨by simp, ?_⟩
        simpa using hdig _ hd
    · rw [if_neg hplus] at h
      by_cases hminus : (c == '-') = true
      · rw [if_pos hminus] at h
        cases rest with
        | nil => exact Option.noConfusion h
        | cons b t =>
          have hd : (b :: t).all Char.isDigit = true := map_eq_some_digits (b :: t) v h
          have hc : c = '-' := by simpa using hminus
          subst hc
          simp only [List.all_cons, Bool.or_eq_true, Bool.and_eq_true]
          refine ⟨by simp, ?_⟩
          simpa using hdig _ hd
      · rw [if_neg hminus] at h
        exact hdig _ (map_eq_some_digits (c :: rest) v h)

theorem shape_char_free (c : Char)
    (h : (c == '+' || c == '-' || c.isDigit) = true) :
    (!(c == ',') && !(c == '=')) = true := by
  simp only [Bool.or_eq_true, beq_iff_eq] at h
  rcases h with (rfl | rfl) | hd
  · decide
  · decide
  · have h1 : c ≠ ',' := by rintro rfl; exact absurd hd (by decide)
    have h2 : c ≠ '=' := by rintro rfl; exact absurd hd (by decide)
    simp [h1, h2]

theorem space_char_free (c : Char) (h : goIsSpace c = true) :
    (!(c == ',') && !(c == '=')) = true := by
  have h1 : c ≠ ',' := by rintro rfl; exact absurd h (by decide)
  have h2 : c ≠ '=' := by rintro rfl; exact absurd h (by decide)
  simp [h1, h2]

/-- C3: a generic error message containing the rate-limit marker whose
second comma-delimited fragment is `RetryAfterMs=<v>` — whitespace allowed
around the key, `<v>` any string `strconv.Atoi` parses to the integer `v` —
yields a delay of exactly `v` milliseconds. -/
theorem getRetryAfterMs_server_value (crp : CosmosRetryPolicy) (jitter : Int)
    (p w₁ w₂ vstr rest : List Char) (v : Int)
    (hp : p.all (fun c => !(c == ',')) = true)
    (h1 : w₁.all goIsSpace = true)
    (h2 : w₂.all goIsSpace = true)
    (hv : goAtoi vstr = some v)
    (hrest : rest = [] ∨ rest.head? = some ',')
    (hm : goContains
      (p ++ ',' :: ((w₁ ++ (retryAfterKey ++ (w₂ ++ '=' :: vstr))) ++ rest))
      rateLimitingErrPart = true) :
    getRetryAfterMs crp jitter
      (p ++ ',' :: ((w₁ ++ (retryAfterKey ++ (w₂ ++ '=' :: vstr))) ++ rest)) =
      .ok (v * millisecond) := by
  have hvfree : vstr.all (fun c => !(c == ',') && !(c == '=')) = true :=
    all_mono vstr shape_char_free (goAtoi_shape vstr v hv)
  have hw1free : w₁.all (fun c => !(c == ',') && !(c == '=')) = true :=
    all_mono w₁ space_char_free h1
  have hw2free : w₂.all (fun c => !(c == ',') && !(c == '=')) = true :=
    all_mono w₂ space_char_free h2
  have hkeyfree : retryAfterKey.all (fun c => !(c == ',') && !(c == '=')) = true := by
    decide
  have hfragfree : (w₁ ++ (retryAfterKey ++ (w₂ ++ '=' :: vstr))).all
      (fun c => !(c == ',')) = true := by
    simp only [List.all_append, List.all_cons, Bool.and_eq_true]
    exact ⟨all_and_left _ hw1free, all_and_left _ hkeyfree,
      all_and_left _ hw2free, by decide, all_and_left _ hvfree⟩
  have hidx :
      (goSplit (p ++ ',' :: ((w₁ ++ (retryAfterKey ++ (w₂ ++ '=' :: vstr))) ++ rest))
        ',')[1]? = some (w₁ ++ (retryAfterKey ++ (w₂ ++ '=' :: vstr))) :=
    goSplit_get1 p _ rest hp hfragfree hrest
  have heqfree : (w₁ ++ (retryAfterKey ++ w₂)).all (fun c => !(c == '=')) = true := by
    simp only [List.all_append, Bool.and_eq_true]
    exact ⟨all_and_right _ hw1free, all_and_right _ hkeyfree,
      all_and_right _ hw2free⟩
  have hassoc : w₁ ++ (retryAfterKey ++ (w₂ ++ '=' :: vstr)) =
      (w₁ ++ (retryAfterKey ++ w₂)) ++ '=' :: vstr := by
    simp [List.append_assoc]
  have hsplit : goSplit (w₁ ++ (retryAfterKey ++ (w₂ ++ '=' :: vstr))) '=' =
      (w₁ ++ (retryAfterKey ++ w₂)) :: goSplit vstr '=' := by
    rw [hassoc]
    exact goSplit_append_sep '=' _ vstr heqfree
  have hvsplit : goSplit vstr '=' = [vstr] :=
    goSplit_no_sep '=' vstr (all_and_right _ hvfree)
  have hk0 : (goSplit (w₁ ++ (retryAfterKey ++ (w₂ ++ '=' :: vstr))) '=')[0]? =
      some (w₁ ++ (retryAfterKey ++ w₂)) := by
    rw [hsplit]; simp
  have hk1 : (goSplit (w₁ ++ (retryAfterKey ++ (w₂ ++ '=' :: vstr))) '=')[1]? =
      some vstr := by
    rw [hsplit, hvsplit]; simp
  have htrim : goTrimSpace (w₁ ++ (retryAfterKey ++ w₂)) = retryAfterKey :=
    goTrimSpace_of_key w₁ w₂ h1 h2
  have hres := getRetryAfterMs_server_path crp jitter _ _ _ _ hm hidx hk0 htrim hk1
  rw [hres, hv]
  simp

theorem getRetryAfterMs_server_value_witness :
    getRetryAfterMs (NewCosmosRetryPolicy 5) 0
      ("x".toList ++ ',' ::
        ((" ".toList ++ (retryAfterKey ++ (([] : List Char) ++ '=' :: "42".toList))) ++
          ", TooManyRequests (429)".toList)) = .ok (42 * millisecond) :=
  getRetryAfterMs_server_value (NewCosmosRetryPolicy 5) 0 ("x".toList) (" ".toList) []
    ("42".toList) (", TooManyRequests (429)".toList) 42 (by decide) (by decide)
    (by decide) (by decide) (Or.inr (by decide)) (by decide)

end CosmosRetry
